import Mathlib

/-!
Verification development for the auto-labeling orchestrator
(`labeling.py`, `labeling_deepseekr1.py`, `src/core_logic/process.py`).

The Python code is shallowly embedded: a pandas DataFrame of rows becomes a
`List Row` (plus an explicit column-presence model where column existence
matters), the filesystem of checkpoint artifacts becomes a list of settled
batch ranges, Python strings become `List Char` with executable translations
of the string methods used, and the external generative service becomes an
oracle function supplied as a parameter.  Fallible calls return
`Except`/`Option`.
-/

namespace AutoLabel

/-- Python strings are modelled as their character lists, so that every
string operation evaluates inside the kernel. -/
def str (s : String) : List Char := s.data

/-- Python `s.strip()`: drop whitespace from both ends. -/
def pyStrip (s : List Char) : List Char :=
  ((s.dropWhile Char.isWhitespace).reverse.dropWhile Char.isWhitespace).reverse

/-- Python `s.split(sep, 1)` for a non-degenerate separator: the part before
the first occurrence of `sep`, and - when `sep` occurs - the remainder after
it.  `(s, none)` means `sep not in s`. -/
def pySplit1 (sep : List Char) : List Char → List Char × Option (List Char)
  | [] => if sep.isEmpty then ([], some []) else ([], none)
  | c :: rest =>
    if sep.isPrefixOf (c :: rest) then ([], some ((c :: rest).drop sep.length))
    else
      let p := pySplit1 sep rest
      (c :: p.1, p.2)

/-- Python `sep in s` (substring containment). -/
def pyContains (s sep : List Char) : Bool :=
  (pySplit1 sep s).2.isSome

/-- A row of the working dataset: stable id, free text, optional label and
justification (the `id`, text, `label`, `justifikasi` columns). -/
structure Row where
  id : Nat
  text : List Char
  label : Option (List Char)
  justifikasi : Option (List Char)
deriving Repr, DecidableEq

/-- One item of a structured labeling response:
an `id`/`label`/`justifikasi` JSON object (process.py output items). -/
structure OutItem where
  id : Nat
  label : List Char
  justifikasi : List Char
deriving Repr, DecidableEq

/-- Python `range(0, stop, step)` for `step > 0`: the multiples of `step`
below `stop` (labeling.py:223, process.py:458/536/561). -/
def pyRange (stop step : Nat) : List Nat :=
  (List.range ((stop + step - 1) / step)).map (fun k => k * step)

/-- The batch ranges enumerated by every planner loop:
`start` runs over `range(0, total_rows, batch_size)` and
`end = min(start + batch_size, total_rows)`
(labeling.py:223-224, process.py:458-459). -/
def plannedRanges (n B : Nat) : List (Nat × Nat) :=
  (pyRange n B).map (fun s => (s, min (s + B) n))

/-- `df.iloc[start:end]` on the row list. -/
def dfSlice (df : List Row) (s e : Nat) : List Row :=
  (df.drop s).take (e - s)

/-- Number of rows of a slice carrying a label:
`batch_slice['label'].notna().sum()` (process.py:463). -/
def labeledCount (rows : List Row) : Nat :=
  (rows.filter (fun r => r.label.isSome)).length

/-- Whether every row of a slice already carries a label:
`batch_slice_master['label'].notna().all()` (labeling.py:237). -/
def allLabeled (rows : List Row) : Bool :=
  rows.all (fun r => r.label.isSome)

/-! ## labeling.py: response validation and retry loop -/

/-- The hard-coded vocabulary (labeling.py:351, labeling_deepseekr1.py:39). -/
def allowed_labels : List (List Char) :=
  [str "POSITIF", str "NEGATIF", str "NETRAL", str "TIDAK RELEVAN"]

/-- Validity of a single output line (labeling.py:352-355):
`any(output_line.strip().startswith(label) for label in allowed_labels)
and " - " in output_line`. -/
def line_format_valid (line : List Char) : Bool :=
  allowed_labels.any (fun lab => lab.isPrefixOf (pyStrip line)) &&
    pyContains line (str " - ")

/-- Batch-level validity: every line must be valid (labeling.py:352-355). -/
def format_valid (output : List (List Char)) : Bool :=
  output.all line_format_valid

/-- Parsing of an accepted output line (labeling.py:368-371):
`parts = line.split(" - ", 1)`; label is `parts[0].strip()`, justification is
`parts[1].strip()` when present, else the empty string. -/
def parse_output_line (line : List Char) : List Char × List Char :=
  let p := pySplit1 (str " - ") line
  (pyStrip p.1, match p.2 with | some rest => pyStrip rest | none => [])

/-- One attempt of `genai_generate`: a list of output lines, or an exception. -/
inductive GenResult
  | ok (output : List (List Char))
  | exc
deriving Repr, DecidableEq

/-- The labeling.py per-batch retry loop (labeling.py:249-363):
`while not valid and attempts < max_retry`, one API call per attempt;
a length mismatch (labeling.py:347-350), an invalid format
(labeling.py:356-359) or an exception (labeling.py:361-363) all lead to the
next attempt; a valid batch is returned.  The fuel argument is the number of
remaining attempts, initially `max_retry`. -/
def labeling_retry (nTexts : Nat) (api : Nat → GenResult) :
    Nat → Nat → Option (List (List Char))
  | 0, _ => none
  | fuel + 1, attempt =>
    match api attempt with
    | .exc => labeling_retry nTexts api fuel (attempt + 1)
    | .ok output =>
      if output.length ≠ nTexts then labeling_retry nTexts api fuel (attempt + 1)
      else if ¬ format_valid output then labeling_retry nTexts api fuel (attempt + 1)
      else some output

/-! ## labeling.py: per-batch planning (labeling.py:223-247) -/

/-- The action labeling.py takes for one batch range. -/
inductive BatchAction
  | skip
  | freeCheckpoint
  | process
deriving Repr, DecidableEq

/-- Priority classification of a batch (labeling.py:229-245):
(1) result file (checkpoint) for the range exists - skip;
(2) every row of the master slice is labeled - free checkpoint;
(3) otherwise - process.  Checkpoint artifacts are keyed by their
`(start, end)` range (the `..._batchSSS_EEE_labeled.xlsx` name). -/
def classify_batch (cps : List (Nat × Nat)) (master : List Row) (s e : Nat) :
    BatchAction :=
  if (s, e) ∈ cps then .skip
  else if allLabeled (dfSlice master s e) then .freeCheckpoint
  else .process

/-- The texts sent for a processed batch (labeling.py:247): the whole range
slice of the progress frame, `df_progress.iloc[start:end]["full_text"]`. -/
def texts_sent (progress : List Row) (s e : Nat) : List (List Char) :=
  (dfSlice progress s e).map (fun r => r.text)

/-- Observable result of one labeling.py run: the checkpoint ranges present
afterwards, the ranges for which external calls were issued, and the ranges
whose checkpoint artifact was written during the run. -/
structure RunResult where
  cps : List (Nat × Nat)
  called : List (Nat × Nat)
  writes : List (Nat × Nat)
deriving Repr, DecidableEq

/-- The labeling.py batch loop (labeling.py:223-379) at the planning level.
`succ r = true` means processing range `r` eventually produced a valid batch
within `max_retry` attempts (then its checkpoint is written,
labeling.py:376); `succ r = false` means all attempts failed (no checkpoint,
labeling.py:379).  Skipped ranges issue no call and write nothing
(labeling.py:230-232); free checkpoints write without calling
(labeling.py:237-242). -/
def run_batches (master : List Row) (succ : Nat × Nat → Bool) :
    List (Nat × Nat) → List (Nat × Nat) → RunResult
  | [], cps => ⟨cps, [], []⟩
  | r :: rest, cps =>
    match classify_batch cps master r.1 r.2 with
    | .skip => run_batches master succ rest cps
    | .freeCheckpoint =>
      let res := run_batches master succ rest (r :: cps)
      { res with writes := r :: res.writes }
    | .process =>
      if succ r then
        let res := run_batches master succ rest (r :: cps)
        { res with called := r :: res.called, writes := r :: res.writes }
      else
        let res := run_batches master succ rest cps
        { res with called := r :: res.called }

/-- One full labeling.py run over all planned ranges. -/
def labeling_run (master : List Row) (B : Nat) (succ : Nat × Nat → Bool)
    (cps : List (Nat × Nat)) : RunResult :=
  run_batches master succ (plannedRanges master.length B) cps

/-! ## labeling_deepseekr1.py -/

/-- `parse_model_output` (labeling_deepseekr1.py:8-33): everything after the
first `</think>` tag, stripped; the whole output stripped when no tag. -/
def parse_model_output (raw : List Char) : List Char :=
  let p := pySplit1 (str "</think>") raw
  match p.2 with
  | some rest => pyStrip rest
  | none => pyStrip raw

/-- `ollama_generate_single` (labeling_deepseekr1.py:35-73): up to
`max_retry` attempts (the fuel); per attempt the raw response is cleaned,
must contain `" - "`, and the parsed label must be an exact member of
`allowed_labels`, else the next attempt runs; on success the
(label, justification) pair is returned, after all attempts `none`. -/
def ollama_generate_single (api : Nat → Except Unit (List Char)) :
    Nat → Nat → Option (List Char × List Char)
  | 0, _ => none
  | fuel + 1, attempt =>
    match api attempt with
    | .error _ => ollama_generate_single api fuel (attempt + 1)
    | .ok raw =>
      let line := parse_model_output raw
      let p := pySplit1 (str " - ") line
      match p.2 with
      | none => ollama_generate_single api fuel (attempt + 1)
      | some rest =>
        let label := pyStrip p.1
        if label ∈ allowed_labels then some (label, pyStrip rest)
        else ollama_generate_single api fuel (attempt + 1)

/-! ## process.py: rotators, planner, merge, resume -/

/-- `rotate_api_key` (process.py:86-92): cyclic successor over the key list,
`(index + 1) mod N`. -/
def rotate_api_key (numKeys idx : Nat) : Nat :=
  (idx + 1) % numKeys

/-- `rotate_model` (process.py:94-125): advance the linear fallback cursor
when possible, returning whether it advanced together with the new cursor. -/
def rotate_model (numModels idx : Nat) : Bool × Nat :=
  if idx + 1 < numModels then (true, idx + 1) else (false, idx)

/-- `find_optimal_batches` (process.py:448-480): enumerate the planned
ranges, skip a range when its slice is fully labeled, skip it when it is
partially labeled, queue it otherwise. -/
def find_optimal_batches (df : List Row) (B : Nat) : List (Nat × Nat) :=
  (plannedRanges df.length B).filter (fun r =>
    let sl := dfSlice df r.1 r.2
    let lc := labeledCount sl
    if lc = sl.length then false
    else if 0 < lc then false
    else true)

/-- Rows of a batch slice that still need labeling (process.py:581):
`batch_slice[batch_slice['label'].isna()]`. -/
def unlabeledIn (df : List Row) (s e : Nat) : List Row :=
  (dfSlice df s e).filter (fun r => r.label.isNone)

/-- The effect of one response item on one row (process.py:794-795):
`working_df.loc[working_df['id'] == idx, col] = row[col]` touches exactly
the rows whose id matches, and only their label/justifikasi columns. -/
def applyItem (o : OutItem) (r : Row) : Row :=
  if r.id = o.id then { r with label := some o.label, justifikasi := some o.justifikasi }
  else r

/-- The reconciliation merge (process.py:790-795): iterate the response
items in order; each updates every working row with a matching id. -/
def updateById (working : List Row) (out : List OutItem) : List Row :=
  out.foldl (fun w o => w.map (applyItem o)) working

/-- The response item that last assigned to a given id, if any. -/
def lastAssign (out : List OutItem) (i : Nat) : Option OutItem :=
  out.foldl (fun acc o => if o.id = i then some o else acc) none

/-- A tabular file at the column level: a row count and the optional
`id`/`label`/`justifikasi` columns (present or absent). -/
structure DataFile where
  nrows : Nat
  idCol : Option (List Nat)
  labelCol : Option (List (Option (List Char)))
  justCol : Option (List (Option (List Char)))
deriving Repr, DecidableEq

/-- The ensure-columns block (process.py:402-408 and 422-428): add a
`label`/`justifikasi` column of nulls when missing, and an `id` column
`range(len(df))` when missing. -/
def ensure_columns (df : DataFile) : DataFile :=
  { df with
    labelCol := some (df.labelCol.getD (List.replicate df.nrows none))
    justCol := some (df.justCol.getD (List.replicate df.nrows none))
    idCol := some (df.idCol.getD (List.range df.nrows)) }

/-- `create_or_resume_output_file` (process.py:365-445) at the column level.
`existing = none`: no prior output file, the master is copied and columns
ensured (process.py:418-428).  `existing = some (.ok prior)`: the newest
prior file loads and its columns are ensured (process.py:397-411).
`existing = some (.error ())`: a prior file exists but fails to load; the
fallback copies the master without the ensure block (process.py:413-416). -/
def create_or_resume_output_file (master : DataFile)
    (existing : Option (Except Unit DataFile)) : DataFile :=
  match existing with
  | none => ensure_columns master
  | some (.ok prior) => ensure_columns prior
  | some (.error _) => master

/-! ## process.py: the `label_dataset` batch loop

In the source the statement `try:` at process.py:606 is indented at the same
level as the `while not is_batch_valid and attempts < max_retry:` header at
process.py:602, whose body is only `attempts += 1` and the prompt assignment
(process.py:603-604).  The attempt counter therefore spins without effect,
each batch issues exactly one API request, and the `continue`/`break`
statements inside the try block act on the outer `for` loop over batches.
The embedding below reproduces this actual control flow. -/

/-- Outcome of one `generate_from_gemini` call, classified the way the
except-branch classifies the exception text (process.py:726-750): a parsed
item list, a `max_tokens` error, a quota/limit/permission error, or any
other error. -/
inductive ApiResult
  | ok (items : List OutItem)
  | errTokenLimit
  | errQuota
  | errOther
deriving Repr, DecidableEq

/-- The mutable state of one `label_dataset` run: the working frame, both
rotation cursors, the stop flag, a call counter, the ranges that dispatched
a request, the number of backoff sleeps, and the range whose untouched slice
was saved by the token-limit branch (process.py:731-732), if any. -/
structure ProcState where
  working : List Row
  keyIdx : Nat
  modelIdx : Nat
  stopped : Bool
  nCalls : Nat
  attempted : List (Nat × Nat)
  backoffs : Nat
  isolatedSaved : Option (Nat × Nat)
deriving Repr, DecidableEq

/-- The batch loop of `label_dataset` (process.py:561-878) as it actually
executes.  Per planned range: stop check (process.py:564); fully labeled
batches are passed over (process.py:584); otherwise one request is issued
(`_maxRetry` is unobservable, see the section comment).  On a valid response
the working frame is merged by id (process.py:788-795); on a count mismatch
`continue` moves to the next batch (process.py:716-719); on a token-limit
error the slice is saved and `break` leaves the loop (process.py:730-734);
on a quota error the model rotates and `continue` moves on, or the stop flag
is set and `break` leaves the loop (process.py:735-746); on any other error
the key rotates and a backoff sleep runs (process.py:747-761). -/
def label_dataset_loop (_maxRetry numModels numKeys : Nat)
    (api : Nat → ApiResult) : List (Nat × Nat) → ProcState → ProcState
  | [], st => st
  | r :: rest, st =>
    if st.stopped then st
    else
      let unl := unlabeledIn st.working r.1 r.2
      if unl.isEmpty then label_dataset_loop _maxRetry numModels numKeys api rest st
      else
        let res := api st.nCalls
        let st1 := { st with nCalls := st.nCalls + 1, attempted := st.attempted ++ [r] }
        match res with
        | .ok items =>
          if items.length ≠ unl.length then
            label_dataset_loop _maxRetry numModels numKeys api rest st1
          else
            label_dataset_loop _maxRetry numModels numKeys api rest
              { st1 with working := updateById st1.working items }
        | .errTokenLimit =>
          { st1 with isolatedSaved := some r }
        | .errQuota =>
          let rot := rotate_model numModels st1.modelIdx
          if rot.1 then
            label_dataset_loop _maxRetry numModels numKeys api rest
              { st1 with modelIdx := rot.2 }
          else
            { st1 with stopped := true }
        | .errOther =>
          label_dataset_loop _maxRetry numModels numKeys api rest
            { st1 with keyIdx := rotate_api_key numKeys st1.keyIdx,
                       backoffs := st1.backoffs + 1 }


/-- Example fixture: an unlabeled row with a given id. -/
def mkRow (i : Nat) : Row :=
  ⟨i, str "t", none, none⟩

/-- Example fixture: the state at the start of a `label_dataset` run. -/
def initProcState (w : List Row) : ProcState :=
  ⟨w, 0, 0, false, 0, [], 0, none⟩

/-! ## Theorems -/

namespace Theorems

theorem lt_ceil_iff {n B k : Nat} (hB : 0 < B) :
    k < (n + B - 1) / B ↔ k * B < n := by
  rw [Nat.lt_iff_add_one_le, Nat.le_div_iff_mul_le hB, Nat.add_mul, Nat.one_mul]
  omega

theorem mem_plannedRanges {n B : Nat} (hB : 0 < B) {p : Nat × Nat} :
    p ∈ plannedRanges n B ↔ ∃ k, k * B < n ∧ p = (k * B, min (k * B + B) n) := by
  simp only [plannedRanges, pyRange, List.map_map, List.mem_map, List.mem_range,
    Function.comp]
  constructor
  · rintro ⟨k, hk, rfl⟩
    exact ⟨k, (lt_ceil_iff hB).mp hk, rfl⟩
  · rintro ⟨k, hk, rfl⟩
    exact ⟨k, (lt_ceil_iff hB).mpr hk, rfl⟩

/-- Claim C7: for every dataset of N rows and every batch size B > 0 the planner
enumerates exactly the half-open ranges from k*B to min((k+1)*B, N); every row
index below N lies in one of them, two distinct planned ranges never share an
index, and every range ends within the dataset. -/
theorem claim_C7 (n B : Nat) (hB : 0 < B) :
    plannedRanges n B =
      (List.range ((n + B - 1) / B)).map (fun k => (k * B, min ((k + 1) * B) n))
    ∧ (∀ i, i < n → ∃ p, p ∈ plannedRanges n B ∧ p.1 ≤ i ∧ i < p.2)
    ∧ (∀ p q, p ∈ plannedRanges n B → q ∈ plannedRanges n B →
        ∀ i, p.1 ≤ i → i < p.2 → q.1 ≤ i → i < q.2 → p = q)
    ∧ (∀ p, p ∈ plannedRanges n B → p.2 ≤ n) := by
  refine ⟨?_, ?_, ?_, ?_⟩
  · simp only [plannedRanges, pyRange, List.map_map]
    refine List.map_congr_left (fun k _ => ?_)
    simp [Function.comp, Nat.add_mul, Nat.one_mul]
  · intro i hi
    refine ⟨((i / B) * B, min ((i / B) * B + B) n), ?_, ?_, ?_⟩
    · exact (mem_plannedRanges hB).mpr ⟨i / B, by
        have h1 : B * (i / B) + i % B = i := Nat.div_add_mod i B
        have h2 : i % B < B := Nat.mod_lt _ hB
        constructor
        · rw [Nat.mul_comm]; omega
        · rfl⟩
    · have h1 : B * (i / B) + i % B = i := Nat.div_add_mod i B
      rw [Nat.mul_comm]; omega
    · have h1 : B * (i / B) + i % B = i := Nat.div_add_mod i B
      have h2 : i % B < B := Nat.mod_lt _ hB
      simp only [Nat.lt_min]
      rw [Nat.mul_comm]
      omega
  · intro p q hp hq i hp1 hp2 hq1 hq2
    obtain ⟨k, hk, rfl⟩ := (mem_plannedRanges hB).mp hp
    obtain ⟨l, hl, rfl⟩ := (mem_plannedRanges hB).mp hq
    have hik : i / B = k := by
      refine Nat.div_eq_of_lt_le hp1 ?_
      simp only [Nat.lt_min] at hp2
      rw [Nat.add_mul, Nat.one_mul]
      omega
    have hil : i / B = l := by
      refine Nat.div_eq_of_lt_le hq1 ?_
      simp only [Nat.lt_min] at hq2
      rw [Nat.add_mul, Nat.one_mul]
      omega
    subst hik
    rw [hil]
  · intro p hp
    obtain ⟨k, hk, rfl⟩ := (mem_plannedRanges hB).mp hp
    exact Nat.min_le_right _ _

/-- Claim C7 witness: the theorem applied at N = 5, B = 2, row index 3. -/
theorem claim_C7_witness :
    (0 < 2 ∧ plannedRanges 5 2 = [(0, 2), (2, 4), (4, 5)])
    ∧ ∃ p, p ∈ plannedRanges 5 2 ∧ p.1 ≤ 3 ∧ 3 < p.2 :=
  ⟨⟨by decide, by decide⟩, (claim_C7 5 2 (by decide)).2.1 3 (by decide)⟩


theorem classify_skip_of_mem {cps : List (Nat × Nat)} {master : List Row}
    {r : Nat × Nat} (h : r ∈ cps) :
    classify_batch cps master r.1 r.2 = .skip := by
  simp only [classify_batch]
  rw [if_pos]
  exact (Prod.mk.eta (p := r)) ▸ h

theorem not_mem_of_classify_ne_skip {cps : List (Nat × Nat)} {master : List Row}
    {r : Nat × Nat} (h : classify_batch cps master r.1 r.2 ≠ .skip) :
    r ∉ cps := fun hmem => h (classify_skip_of_mem hmem)

theorem run_batches_cps_mono (master : List Row) (succ : Nat × Nat → Bool)
    (ranges : List (Nat × Nat)) (cps : List (Nat × Nat)) :
    cps ⊆ (run_batches master succ ranges cps).cps := by
  induction ranges generalizing cps with
  | nil => exact fun x hx => hx
  | cons r rest ih =>
    simp only [run_batches]
    split
    · exact ih cps
    · exact fun x hx => ih (r :: cps) (List.mem_cons_of_mem r hx)
    · split
      · exact fun x hx => ih (r :: cps) (List.mem_cons_of_mem r hx)
      · exact ih cps

theorem run_batches_skip_invariant (master : List Row) (succ : Nat × Nat → Bool)
    (ranges : List (Nat × Nat)) (cps : List (Nat × Nat)) {r : Nat × Nat}
    (h : r ∈ cps) :
    r ∉ (run_batches master succ ranges cps).called
    ∧ r ∉ (run_batches master succ ranges cps).writes := by
  induction ranges generalizing cps with
  | nil => exact ⟨List.not_mem_nil r, List.not_mem_nil r⟩
  | cons q rest ih =>
    simp only [run_batches]
    split
    · exact ih cps h
    · next hc =>
      have hq : q ∉ cps := not_mem_of_classify_ne_skip (by rw [hc]; simp)
      have hne : r ≠ q := fun he => hq (he ▸ h)
      have hrec := ih (q :: cps) (List.mem_cons_of_mem q h)
      refine ⟨hrec.1, ?_⟩
      simp only [List.mem_cons, not_or]
      exact ⟨hne, hrec.2⟩
    · next hc =>
      have hq : q ∉ cps := not_mem_of_classify_ne_skip (by rw [hc]; simp)
      have hne : r ≠ q := fun he => hq (he ▸ h)
      split
      · have hrec := ih (q :: cps) (List.mem_cons_of_mem q h)
        constructor
        · simp only [List.mem_cons, not_or]
          exact ⟨hne, hrec.1⟩
        · simp only [List.mem_cons, not_or]
          exact ⟨hne, hrec.2⟩
      · have hrec := ih cps h
        constructor
        · simp only [List.mem_cons, not_or]
          exact ⟨hne, hrec.1⟩
        · exact hrec.2

theorem run_batches_complete (master : List Row) (succ : Nat × Nat → Bool)
    (hs : ∀ r, succ r = true) (ranges : List (Nat × Nat))
    (cps : List (Nat × Nat)) :
    ∀ r ∈ ranges, r ∈ (run_batches master succ ranges cps).cps := by
  induction ranges generalizing cps with
  | nil => intro r hr; exact absurd hr (List.not_mem_nil r)
  | cons q rest ih =>
    intro r hr
    simp only [run_batches]
    rcases List.mem_cons.mp hr with rfl | hr'
    · split
      · next hc =>
        have hmem : r ∈ cps := by
          by_contra hn
          revert hc
          simp only [classify_batch]
          rw [if_neg ((Prod.mk.eta (p := r)).symm ▸ hn)]
          split <;> simp
        exact run_batches_cps_mono master succ rest cps hmem
      · exact run_batches_cps_mono master succ rest (r :: cps) (List.mem_cons_self r cps)
      · split
        · exact run_batches_cps_mono master succ rest (r :: cps) (List.mem_cons_self r cps)
        · next hfalse => exact absurd (hs r) (by simpa using hfalse)
    · split
      · exact ih cps r hr'
      · exact ih (q :: cps) r hr'
      · split
        · exact ih (q :: cps) r hr'
        · exact ih cps r hr'

theorem run_batches_all_skip (master : List Row) (succ : Nat × Nat → Bool)
    (ranges : List (Nat × Nat)) (cps : List (Nat × Nat))
    (h : ∀ r ∈ ranges, r ∈ cps) :
    run_batches master succ ranges cps = ⟨cps, [], []⟩ := by
  induction ranges with
  | nil => rfl
  | cons q rest ih =>
    simp only [run_batches]
    rw [classify_skip_of_mem (h q (List.mem_cons_self q rest))]
    exact ih (fun r hr => h r (List.mem_cons_of_mem q hr))

/-- Claim C1: a planned range whose checkpoint artifact already exists is
classified Skip, no external call is ever issued for it and its artifact is
never rewritten by a run; and when a first run succeeds on every batch it
processes, a second run over the resulting checkpoints issues zero external
calls and writes no artifact at all. -/
theorem claim_C1 (master : List Row) (B : Nat) (cps0 : List (Nat × Nat))
    (succ1 succ2 : Nat × Nat → Bool) (hs : ∀ r, succ1 r = true) :
    (∀ r ∈ cps0,
      classify_batch cps0 master r.1 r.2 = .skip
      ∧ r ∉ (labeling_run master B succ2 cps0).called
      ∧ r ∉ (labeling_run master B succ2 cps0).writes)
    ∧ (labeling_run master B succ2 (labeling_run master B succ1 cps0).cps).called = []
    ∧ (labeling_run master B succ2 (labeling_run master B succ1 cps0).cps).writes = [] := by
  refine ⟨fun r hr => ⟨classify_skip_of_mem hr, ?_, ?_⟩, ?_, ?_⟩
  · exact (run_batches_skip_invariant master succ2 _ cps0 hr).1
  · exact (run_batches_skip_invariant master succ2 _ cps0 hr).2
  · rw [labeling_run, run_batches_all_skip]
    exact fun r hr => run_batches_complete master succ1 hs _ cps0 r hr
  · rw [labeling_run, run_batches_all_skip]
    exact fun r hr => run_batches_complete master succ1 hs _ cps0 r hr

/-- Claim C1 witness: the theorem applied to a 3-row dataset, batch size 2, an
existing checkpoint for range (0, 2) and an always-succeeding first run. -/
theorem claim_C1_witness :
    (∀ r : Nat × Nat, (fun _ : Nat × Nat => true) r = true)
    ∧ classify_batch [(0, 2)] [⟨0, str "a", none, none⟩, ⟨1, str "b", none, none⟩,
        ⟨2, str "c", none, none⟩] 0 2 = .skip
    ∧ (labeling_run [⟨0, str "a", none, none⟩, ⟨1, str "b", none, none⟩,
        ⟨2, str "c", none, none⟩] 2 (fun _ => false)
        (labeling_run [⟨0, str "a", none, none⟩, ⟨1, str "b", none, none⟩,
          ⟨2, str "c", none, none⟩] 2 (fun _ => true) [(0, 2)]).cps).called = [] := by
  refine ⟨fun r => rfl, ?_, ?_⟩
  · exact ((claim_C1 [⟨0, str "a", none, none⟩, ⟨1, str "b", none, none⟩,
      ⟨2, str "c", none, none⟩] 2 [(0, 2)] (fun _ => true) (fun _ => false)
      (fun r => rfl)).1 (0, 2) (by decide)).1
  · exact (claim_C1 [⟨0, str "a", none, none⟩, ⟨1, str "b", none, none⟩,
      ⟨2, str "c", none, none⟩] 2 [(0, 2)] (fun _ => true) (fun _ => false)
      (fun r => rfl)).2.1


/-- Claim C2 counterexample: labeling.py validation accepts the batch whose only
line reads POSITIFES - x, although the label POSITIFES that would be written
lies outside the allowed set even under case folding; an out-of-vocabulary
label therefore does not always invalidate the batch, because the check is a
prefix test, not a membership test. -/
theorem claim_C2_counterexample :
    format_valid [str "POSITIFES - x"] = true
    ∧ allowed_labels.all
        (fun lab => lab.map Char.toUpper ≠
          (parse_output_line (str "POSITIFES - x")).1.map Char.toUpper) = true := by
  exact ⟨by decide, by decide⟩

/-- Claim C2 amended: validation is case-sensitive, not case-insensitive.  One
line failing the starts-with-an-allowed-label-and-contains-separator check
rejects the whole batch; POSITIVE - x is rejected and so is the lowercase
positif - x; labeling_deepseekr1 only ever returns labels that are exact,
case-sensitive members of the allowed set; and a batch containing one bad
label is retried as a whole, with the next valid batch accepted in full. -/
theorem claim_C2 :
    (∀ output line, line ∈ output → line_format_valid line = false →
      format_valid output = false)
    ∧ line_format_valid (str "POSITIVE - x") = false
    ∧ line_format_valid (str "positif - x") = false
    ∧ (∀ (api : Nat → Except Unit (List Char)) (fuel attempt : Nat)
        (lab just : List Char),
        ollama_generate_single api fuel attempt = some (lab, just) →
        lab ∈ allowed_labels)
    ∧ labeling_retry 1
        (fun k => if k = 0 then .ok [str "POSITIVE - bad"] else .ok [str "POSITIF - ok"])
        2 0 = some [str "POSITIF - ok"] := by
  refine ⟨?_, by decide, by decide, ?_, by decide⟩
  · intro output line hmem hinv
    rw [format_valid, Bool.eq_false_iff]
    intro hall
    rw [List.all_eq_true] at hall
    exact absurd (hall line hmem) (by rw [hinv]; simp)
  · intro api fuel
    induction fuel with
    | zero => intro attempt lab just h; exact absurd h (by simp [ollama_generate_single])
    | succ n ih =>
      intro attempt lab just h
      rw [ollama_generate_single] at h
      split at h
      · exact ih _ lab just h
      · dsimp only [] at h
        split at h
        · exact ih _ lab just h
        · split at h
          · next hmem =>
            obtain ⟨h1, _⟩ := Prod.mk.injEq .. ▸ Option.some.injEq .. ▸ h
            exact h1 ▸ hmem
          · exact ih _ lab just h

/-- Claim C2 witness: the whole-batch-rejection part applied to the singleton
batch positif - x, and the deepseek membership part applied to a one-attempt
run returning NETRAL - j. -/
theorem claim_C2_witness :
    (line_format_valid (str "positif - x") = false ∧ str "positif - x" ∈ [str "positif - x"]
      ∧ format_valid [str "positif - x"] = false)
    ∧ (ollama_generate_single (fun _ => .ok (str "NETRAL - j")) 1 0
        = some (str "NETRAL", str "j")
      ∧ str "NETRAL" ∈ allowed_labels) := by
  refine ⟨⟨by decide, by decide, ?_⟩, ⟨by decide, ?_⟩⟩
  · exact claim_C2.1 [str "positif - x"] (str "positif - x") (by decide) (by decide)
  · exact claim_C2.2.2.2.1 (fun _ => .ok (str "NETRAL - j")) 1 0 (str "NETRAL") (str "j")
      (by decide)


/-- Claim C5: when the fallback cursor cannot advance, rotate_model reports
failure and keeps the cursor; a quota error in that state makes the whole run
halt with the stop flag set - the remaining batches are never attempted, no
further model attempt happens and the credential cursor never moves; and with
a 2-model fallback list two consecutive quota errors halt the run after
exactly two calls with the credential cursor untouched. -/
theorem claim_C5 :
    (∀ numModels idx, numModels ≤ idx + 1 → rotate_model numModels idx = (false, idx))
    ∧ (∀ (mR nM nK : Nat) (api : Nat → ApiResult) (rest : List (Nat × Nat))
        (st : ProcState) (r : Nat × Nat),
        st.stopped = false →
        (unlabeledIn st.working r.1 r.2).isEmpty = false →
        nM ≤ st.modelIdx + 1 →
        api st.nCalls = .errQuota →
        label_dataset_loop mR nM nK api (r :: rest) st =
          { st with nCalls := st.nCalls + 1, attempted := st.attempted ++ [r],
                    stopped := true })
    ∧ label_dataset_loop 5 2 3 (fun _ => .errQuota) (plannedRanges 3 1)
        (initProcState ((List.range 3).map mkRow))
      = { initProcState ((List.range 3).map mkRow) with
            nCalls := 2, attempted := [(0, 1), (1, 2)], modelIdx := 1,
            stopped := true } := by
  refine ⟨?_, ?_, by decide⟩
  · intro numModels idx h
    rw [rotate_model, if_neg (by omega)]
  · intro mR nM nK api rest st r hstop hunl hexh hapi
    have hlt : ¬ (st.modelIdx + 1 < nM) := by omega
    simp [label_dataset_loop, hstop, hunl, hapi, rotate_model, hlt]

/-- Claim C5 witness: rotate_model applied at the last model of a 2-model list,
and the halt equation applied to a concrete one-batch state. -/
theorem claim_C5_witness :
    rotate_model 2 1 = (false, 1)
    ∧ label_dataset_loop 5 2 3 (fun _ => .errQuota) [(0, 1)]
        ⟨[mkRow 0], 0, 1, false, 0, [], 0, none⟩
      = ⟨[mkRow 0], 0, 1, true, 1, [(0, 1)], 0, none⟩ := by
  refine ⟨claim_C5.1 2 1 (by decide), ?_⟩
  rw [claim_C5.2.1 5 2 3 (fun _ => .errQuota) []
    ⟨[mkRow 0], 0, 1, false, 0, [], 0, none⟩ (0, 1) rfl (by decide) (by decide) rfl]
  rfl

/-- Claim C6 counterexample: a quota error arriving when no fallback model
remains halts the run with the credential cursor still at 0 and zero backoff
sleeps - the claimed advance-the-credential-rotator-and-back-off fallback
never happens on quota errors. -/
theorem claim_C6_counterexample :
    label_dataset_loop 5 1 3 (fun _ => .errQuota) (plannedRanges 1 1)
        (initProcState [mkRow 0])
      = { initProcState [mkRow 0] with
            nCalls := 1, attempted := [(0, 1)], stopped := true }
    ∧ (label_dataset_loop 5 1 3 (fun _ => .errQuota) (plannedRanges 1 1)
        (initProcState [mkRow 0])).keyIdx = 0
    ∧ (label_dataset_loop 5 1 3 (fun _ => .errQuota) (plannedRanges 1 1)
        (initProcState [mkRow 0])).backoffs = 0 := by
  exact ⟨by decide, by decide, by decide⟩

/-- Claim C6 amended: on a quota or permission error the handler first tries the
model rotator: if a fallback model remains the run proceeds immediately under
the new model with no backoff and no credential change (the next request
serves the next pending batch, not a retry of the same one); if none remains
the run halts with credentials untouched.  Only on other, non-quota errors is
the credential rotator advanced - cyclically by one, always yielding an
in-range index - together with a backoff sleep. -/
theorem claim_C6 :
    (∀ (mR nM nK : Nat) (api : Nat → ApiResult) (rest : List (Nat × Nat))
        (st : ProcState) (r : Nat × Nat),
        st.stopped = false →
        (unlabeledIn st.working r.1 r.2).isEmpty = false →
        st.modelIdx + 1 < nM →
        api st.nCalls = .errQuota →
        label_dataset_loop mR nM nK api (r :: rest) st =
          label_dataset_loop mR nM nK api rest
            { st with nCalls := st.nCalls + 1, attempted := st.attempted ++ [r],
                      modelIdx := st.modelIdx + 1 })
    ∧ (∀ (mR nM nK : Nat) (api : Nat → ApiResult) (rest : List (Nat × Nat))
        (st : ProcState) (r : Nat × Nat),
        st.stopped = false →
        (unlabeledIn st.working r.1 r.2).isEmpty = false →
        nM ≤ st.modelIdx + 1 →
        api st.nCalls = .errQuota →
        label_dataset_loop mR nM nK api (r :: rest) st =
          { st with nCalls := st.nCalls + 1, attempted := st.attempted ++ [r],
                    stopped := true })
    ∧ (∀ (mR nM nK : Nat) (api : Nat → ApiResult) (rest : List (Nat × Nat))
        (st : ProcState) (r : Nat × Nat),
        st.stopped = false →
        (unlabeledIn st.working r.1 r.2).isEmpty = false →
        api st.nCalls = .errOther →
        label_dataset_loop mR nM nK api (r :: rest) st =
          label_dataset_loop mR nM nK api rest
            { st with nCalls := st.nCalls + 1, attempted := st.attempted ++ [r],
                      keyIdx := (st.keyIdx + 1) % nK,
                      backoffs := st.backoffs + 1 })
    ∧ (∀ nK i, 0 < nK → rotate_api_key nK i < nK) := by
  refine ⟨?_, ?_, ?_, ?_⟩
  · intro mR nM nK api rest st r hstop hunl hrem hapi
    simp [label_dataset_loop, hstop, hunl, hapi, rotate_model, hrem]
  · intro mR nM nK api rest st r hstop hunl hexh hapi
    have hlt : ¬ (st.modelIdx + 1 < nM) := by omega
    simp [label_dataset_loop, hstop, hunl, hapi, rotate_model, hlt]
  · intro mR nM nK api rest st r hstop hunl hapi
    simp [label_dataset_loop, hstop, hunl, hapi, rotate_api_key]
  · intro nK i h
    exact Nat.mod_lt _ h

/-- Claim C6 witness: the rotation step and the other-error step applied to a
concrete one-batch state, and cyclicity applied at 3 keys, index 2. -/
theorem claim_C6_witness :
    label_dataset_loop 5 2 3 (fun _ => .errQuota) [(0, 1)]
        ⟨[mkRow 0], 0, 0, false, 0, [], 0, none⟩
      = label_dataset_loop 5 2 3 (fun _ => .errQuota) []
          ⟨[mkRow 0], 0, 1, false, 1, [(0, 1)], 0, none⟩
    ∧ label_dataset_loop 5 2 3 (fun _ => .errOther) [(0, 1)]
        ⟨[mkRow 0], 0, 0, false, 0, [], 0, none⟩
      = label_dataset_loop 5 2 3 (fun _ => .errOther) []
          ⟨[mkRow 0], 1, 0, false, 1, [(0, 1)], 1, none⟩
    ∧ rotate_api_key 3 2 < 3 := by
  refine ⟨?_, ?_, claim_C6.2.2.2 3 2 (by decide)⟩
  · exact claim_C6.1 5 2 3 (fun _ => .errQuota) []
      ⟨[mkRow 0], 0, 0, false, 0, [], 0, none⟩ (0, 1) rfl (by decide) (by decide) rfl
  · exact claim_C6.2.2.1 5 2 3 (fun _ => .errOther) []
      ⟨[mkRow 0], 0, 0, false, 0, [], 0, none⟩ (0, 1) rfl (by decide) rfl


/-- Claim C8 counterexample: a 2-row range with exactly one labeled row and no
checkpoint is dropped by find_optimal_batches instead of being classified
Process, so the claim fails for the process.py planner. -/
theorem claim_C8_counterexample :
    plannedRanges 2 2 = [(0, 2)]
    ∧ 0 < labeledCount (dfSlice
        [⟨0, str "t", some (str "POSITIF"), some (str "j")⟩, ⟨1, str "u", none, none⟩] 0 2)
    ∧ labeledCount (dfSlice
        [⟨0, str "t", some (str "POSITIF"), some (str "j")⟩, ⟨1, str "u", none, none⟩] 0 2) < 2
    ∧ find_optimal_batches
        [⟨0, str "t", some (str "POSITIF"), some (str "j")⟩, ⟨1, str "u", none, none⟩] 2
      = [] := by
  exact ⟨by decide, by decide, by decide, by decide⟩

/-- Claim C8 amended: the labeling.py planner classifies every checkpoint-less,
not-fully-labeled range as Process and sends the whole range slice, while the
process.py planner find_optimal_batches excludes every range that contains at
least one labeled row. -/
theorem claim_C8 :
    (∀ (cps : List (Nat × Nat)) (master : List Row) (s e : Nat),
      (s, e) ∉ cps → allLabeled (dfSlice master s e) = false →
      classify_batch cps master s e = .process)
    ∧ (∀ (progress : List Row) (s e : Nat), s ≤ e → e ≤ progress.length →
        (texts_sent progress s e).length = e - s)
    ∧ (∀ (df : List Row) (B s e : Nat),
        (s, e) ∈ plannedRanges df.length B →
        0 < labeledCount (dfSlice df s e) →
        (s, e) ∉ find_optimal_batches df B) := by
  refine ⟨?_, ?_, ?_⟩
  · intro cps master s e hcp hpart
    rw [classify_batch, if_neg hcp, if_neg (by rw [hpart]; exact Bool.false_ne_true)]
  · intro progress s e hse hlen
    simp only [texts_sent, dfSlice, List.length_map, List.length_take, List.length_drop]
    omega
  · intro df B s e hmem hlc hcontra
    rw [find_optimal_batches, List.mem_filter] at hcontra
    have hpred := hcontra.2
    dsimp only [] at hpred
    split at hpred
    · exact Bool.false_ne_true hpred
    · exact Bool.false_ne_true hpred

/-- Claim C8 witness: the three parts applied to a concrete 2-row frame whose
first row is labeled. -/
theorem claim_C8_witness :
    classify_batch []
        [⟨0, str "t", some (str "POSITIF"), some (str "j")⟩, ⟨1, str "u", none, none⟩]
        0 2 = .process
    ∧ (texts_sent
        [⟨0, str "t", some (str "POSITIF"), some (str "j")⟩, ⟨1, str "u", none, none⟩]
        0 2).length = 2
    ∧ (0, 2) ∉ find_optimal_batches
        [⟨0, str "t", some (str "POSITIF"), some (str "j")⟩, ⟨1, str "u", none, none⟩] 2 := by
  refine ⟨?_, ?_, ?_⟩
  · exact claim_C8.1 []
      [⟨0, str "t", some (str "POSITIF"), some (str "j")⟩, ⟨1, str "u", none, none⟩]
      0 2 (by decide) (by decide)
  · exact claim_C8.2.1
      [⟨0, str "t", some (str "POSITIF"), some (str "j")⟩, ⟨1, str "u", none, none⟩]
      0 2 (by decide) (by decide)
  · exact claim_C8.2.2
      [⟨0, str "t", some (str "POSITIF"), some (str "j")⟩, ⟨1, str "u", none, none⟩]
      2 0 2 (by decide) (by decide)


theorem lastAssign_foldl (out : List OutItem) (i : Nat) (acc : Option OutItem) :
    out.foldl (fun a o => if o.id = i then some o else a) acc =
      match lastAssign out i with
      | some x => some x
      | none => acc := by
  induction out generalizing acc with
  | nil => simp [lastAssign]
  | cons o rest ih =>
    simp only [lastAssign, List.foldl_cons] at *
    rw [ih, ih (if o.id = i then some o else none)]
    by_cases h : o.id = i
    · cases hL : rest.foldl (fun a o => if o.id = i then some o else a) none <;>
        simp [lastAssign, hL, h]
    · cases hL : rest.foldl (fun a o => if o.id = i then some o else a) none <;>
        simp [lastAssign, hL, h]

theorem lastAssign_cons (o : OutItem) (rest : List OutItem) (i : Nat) :
    lastAssign (o :: rest) i =
      match lastAssign rest i with
      | some x => some x
      | none => if o.id = i then some o else none := by
  rw [lastAssign, List.foldl_cons, lastAssign_foldl]

theorem lastAssign_eq_none (out : List OutItem) (i : Nat)
    (h : ∀ o ∈ out, o.id ≠ i) : lastAssign out i = none := by
  induction out with
  | nil => rfl
  | cons o rest ih =>
    rw [lastAssign_cons, ih (fun x hx => h x (List.mem_cons_of_mem o hx))]
    exact if_neg (h o (List.mem_cons_self o rest))

theorem lastAssign_spec (out : List OutItem) (i : Nat) (o' : OutItem)
    (h : lastAssign out i = some o') : o' ∈ out ∧ o'.id = i := by
  induction out with
  | nil => exact absurd h (by simp [lastAssign])
  | cons o rest ih =>
    rw [lastAssign_cons] at h
    cases hL : lastAssign rest i with
    | some x =>
      rw [hL] at h
      obtain rfl : x = o' := by simpa using h
      obtain ⟨h1, h2⟩ := ih hL
      exact ⟨List.mem_cons_of_mem o h1, h2⟩
    | none =>
      rw [hL] at h
      by_cases hid : o.id = i
      · rw [if_pos hid] at h
        obtain rfl : o = o' := by simpa using h
        exact ⟨List.mem_cons_self o rest, hid⟩
      · rw [if_neg hid] at h
        exact absurd h (by simp)

theorem lastAssign_isSome (out : List OutItem) (i : Nat) (o : OutItem)
    (hmem : o ∈ out) (hid : o.id = i) : (lastAssign out i).isSome = true := by
  induction out with
  | nil => exact absurd hmem (List.not_mem_nil o)
  | cons q rest ih =>
    rw [lastAssign_cons]
    rcases List.mem_cons.mp hmem with rfl | hmem'
    · cases hL : lastAssign rest i with
      | some x => simp
      | none => simp [hid]
    · cases hL : lastAssign rest i with
      | some x => simp
      | none =>
        have := ih hmem'
        rw [hL] at this
        exact absurd this (by simp)

theorem applyItem_id (o : OutItem) (r : Row) : (applyItem o r).id = r.id := by
  rw [applyItem]; split <;> rfl

theorem updateById_map (w : List Row) (out : List OutItem) :
    updateById w out = w.map (fun r =>
      match lastAssign out r.id with
      | none => r
      | some o => { r with label := some o.label, justifikasi := some o.justifikasi }) := by
  induction out generalizing w with
  | nil =>
    simp only [updateById, List.foldl_nil, lastAssign, List.map_id_fun]
    exact (List.map_id w).symm
  | cons o rest ih =>
    have hstep : updateById w (o :: rest) = updateById (w.map (applyItem o)) rest := by
      rw [updateById, updateById, List.foldl_cons]
    rw [hstep, ih, List.map_map]
    refine List.map_congr_left (fun r _ => ?_)
    simp only [Function.comp_apply, applyItem_id]
    rw [lastAssign_cons]
    cases hL : lastAssign rest r.id with
    | some x =>
      simp only
      rw [applyItem]
      split <;> rfl
    | none =>
      simp only
      by_cases hid : o.id = r.id
      · rw [if_pos hid, applyItem, if_pos hid.symm]
      · rw [if_neg hid, applyItem, if_neg (fun he => hid he.symm)]

/-- Claim C9: the reconciler merges by id, never by position: the row count is
preserved; a row whose id matches no response item is left completely
unchanged; the id and text of every row survive the merge; and a row whose id
is returned receives the label and justification of a response item carrying
exactly that id. -/
theorem claim_C9 (w : List Row) (out : List OutItem) :
    (updateById w out).length = w.length
    ∧ (∀ (i : Nat) (r : Row), w[i]? = some r → (∀ o ∈ out, o.id ≠ r.id) →
        (updateById w out)[i]? = some r)
    ∧ (∀ (i : Nat) (r r' : Row), w[i]? = some r → (updateById w out)[i]? = some r' →
        r'.id = r.id ∧ r'.text = r.text)
    ∧ (∀ (i : Nat) (r : Row) (o : OutItem), w[i]? = some r → o ∈ out → o.id = r.id →
        ∃ o', o' ∈ out ∧ o'.id = r.id ∧ (updateById w out)[i]? =
          some { r with label := some o'.label, justifikasi := some o'.justifikasi }) := by
  refine ⟨?_, ?_, ?_, ?_⟩
  · rw [updateById_map, List.length_map]
  · intro i r hir hnone
    rw [updateById_map, List.getElem?_map, hir, Option.map_some']
    rw [lastAssign_eq_none out r.id hnone]
  · intro i r r' hir hir'
    rw [updateById_map, List.getElem?_map, hir, Option.map_some'] at hir'
    cases hL : lastAssign out r.id with
    | none =>
      rw [hL] at hir'
      obtain rfl : r = r' := by simpa using hir'
      exact ⟨rfl, rfl⟩
    | some o' =>
      rw [hL] at hir'
      have hr : { r with label := some o'.label, justifikasi := some o'.justifikasi } = r' := by
        simpa using hir'
      rw [← hr]
      exact ⟨rfl, rfl⟩
  · intro i r o hir hmem hid
    have hsome := lastAssign_isSome out r.id o hmem hid
    cases hL : lastAssign out r.id with
    | none => rw [hL] at hsome; exact absurd hsome (by simp)
    | some o' =>
      obtain ⟨hmem', hid'⟩ := lastAssign_spec out r.id o' hL
      refine ⟨o', hmem', hid', ?_⟩
      rw [updateById_map, List.getElem?_map, hir, Option.map_some', hL]

/-- Claim C9 witness: the theorem applied to a 2-row frame with ids 7 and 3 and
a single response item for id 3. -/
theorem claim_C9_witness :
    ([⟨7, str "a", none, none⟩, ⟨3, str "b", none, none⟩] :
        List Row)[0]? = some ⟨7, str "a", none, none⟩
    ∧ (updateById [⟨7, str "a", none, none⟩, ⟨3, str "b", none, none⟩]
        [⟨3, str "NETRAL", str "j"⟩])[0]? = some ⟨7, str "a", none, none⟩
    ∧ (∃ o', o' ∈ ([⟨3, str "NETRAL", str "j"⟩] : List OutItem) ∧ o'.id = 3 ∧
        (updateById [⟨7, str "a", none, none⟩, ⟨3, str "b", none, none⟩]
          [⟨3, str "NETRAL", str "j"⟩])[1]? =
          some ⟨3, str "b", some o'.label, some o'.justifikasi⟩) := by
  refine ⟨by decide, ?_, ?_⟩
  · exact (claim_C9 [⟨7, str "a", none, none⟩, ⟨3, str "b", none, none⟩]
      [⟨3, str "NETRAL", str "j"⟩]).2.1 0 ⟨7, str "a", none, none⟩
      (by decide) (by decide)
  · exact (claim_C9 [⟨7, str "a", none, none⟩, ⟨3, str "b", none, none⟩]
      [⟨3, str "NETRAL", str "j"⟩]).2.2.2 1 ⟨3, str "b", none, none⟩
      ⟨3, str "NETRAL", str "j"⟩ (by decide) (by decide) (by decide)


/-- Claim C10 counterexample: when an existing output file is found but fails to
load, the fallback copies the master unchanged, so a master without an id
column yields a working dataset still without ids. -/
theorem claim_C10_counterexample :
    (create_or_resume_output_file ⟨2, none, none, none⟩ (some (.error ()))).idCol
      = none := by
  decide

/-- Claim C10 amended: in the fresh-creation path and in the successful-resume
path a missing id column is auto-assigned as the consecutive integers 0..N-1:
the column has one entry per row, its entries are pairwise distinct, and the
entry at each position equals that position. -/
theorem claim_C10 :
    ∀ df : DataFile, df.idCol = none →
      (create_or_resume_output_file df none).idCol = some (List.range df.nrows)
      ∧ (∀ master, (create_or_resume_output_file master (some (.ok df))).idCol
          = some (List.range df.nrows))
      ∧ (List.range df.nrows).length = df.nrows
      ∧ (List.range df.nrows).Nodup
      ∧ (∀ i, i < df.nrows → (List.range df.nrows)[i]? = some i) := by
  intro df h
  refine ⟨?_, ?_, List.length_range df.nrows, List.nodup_range df.nrows, ?_⟩
  · rw [create_or_resume_output_file, ensure_columns, h]
    rfl
  · intro master
    rw [create_or_resume_output_file, ensure_columns, h]
    rfl
  · intro i hi
    simp [List.getElem?_range hi]

/-- Claim C10 witness: the theorem applied to a 3-row id-less master in the
fresh-creation path. -/
theorem claim_C10_witness :
    (⟨3, none, none, none⟩ : DataFile).idCol = none
    ∧ (create_or_resume_output_file ⟨3, none, none, none⟩ none).idCol
        = some (List.range 3)
    ∧ (List.range 3).Nodup :=
  ⟨rfl, (claim_C10 ⟨3, none, none, none⟩ rfl).1,
    (claim_C10 ⟨3, none, none, none⟩ rfl).2.2.2.1⟩


/-- Claim C3 at the failing input: in the process.py batch loop a 5-row batch
answered by 4 items is rejected - the working rows are not updated and the
output is not truncated or padded - but, because the try block sits outside
the dedented retry loop, only one request is ever issued and the run moves to
the next batch instead of retrying even with max_retry = 3; labeling.py on
the same responses does retry and accepts only the full-length batch. -/
theorem claim_C3 :
    label_dataset_loop 3 1 1
        (fun k => if k = 0
          then .ok ((List.range 4).map (fun i => ⟨i, str "NETRAL", str "j"⟩))
          else .ok ((List.range 5).map (fun i => ⟨i, str "NETRAL", str "j"⟩)))
        (plannedRanges 5 5) (initProcState ((List.range 5).map mkRow))
      = { initProcState ((List.range 5).map mkRow) with
            nCalls := 1, attempted := [(0, 5)] }
    ∧ labeling_retry 5
        (fun k => if k = 0
          then .ok ((List.range 4).map (fun _ => str "NETRAL - j"))
          else .ok ((List.range 5).map (fun _ => str "NETRAL - j")))
        3 0 = some ((List.range 5).map (fun _ => str "NETRAL - j")) := by
  exact ⟨by decide, by decide⟩

/-- Claim C4 at the failing input: after a token-limit error on the first batch
the run records the untouched slice as isolated and issues no further attempt
for it even though max_retry = 5; but the break leaves the whole batch loop,
so the second planned range (2, 4) is never attempted - processing does not
continue with the next batch as claimed. -/
theorem claim_C4 :
    label_dataset_loop 5 2 1 (fun k => if k = 0 then .errTokenLimit else .ok [])
        (plannedRanges 4 2) (initProcState ((List.range 4).map mkRow))
      = { initProcState ((List.range 4).map mkRow) with
            nCalls := 1, attempted := [(0, 2)], isolatedSaved := some (0, 2) }
    ∧ (2, 4) ∈ plannedRanges 4 2
    ∧ (2, 4) ∉ (label_dataset_loop 5 2 1
        (fun k => if k = 0 then .errTokenLimit else .ok [])
        (plannedRanges 4 2) (initProcState ((List.range 4).map mkRow))).attempted := by
  exact ⟨by decide, by decide, by decide⟩

end Theorems

end AutoLabel
